import Mathlib

/-!
Verification development for the php-v8js bridge (src/lib.rs).

The development shallowly embeds the value-conversion layer, the callback
trampoline, the binding-surface operations and the exit bridge of the
extension.  JavaScript engine values and PHP engine values (zvals) are
modelled as inductive types carrying exactly the structure the source code
observes through the engine APIs.
-/

/-- Model of an IEEE-754 `f64` at the precision the conversion layer
observes: a double either holds an exact integer value (`intVal i`) or it
does not (`nonInt code`: NaN, the infinities, negative zero and fractional
values, distinguished by an opaque code).  The `i64 -> f64` cast performed
by `zval.double()` on a PHP long is modelled as exact; this is accurate for
magnitudes up to 2^53 and classification-accurate (integral vs not) beyond. -/
inductive F64 where
  | intVal (i : Int)
  | nonInt (code : Nat)

/-- v8 `Value::is_int32` on a number: true exactly when the double's value
is an integer representable in a signed 32-bit word (negative zero and
non-integral doubles are excluded, they are `nonInt` in the model). -/
def F64.isInt32 : F64 → Bool
  | .intVal i => decide (-(2 ^ 31) ≤ i ∧ i < 2 ^ 31)
  | .nonInt _ => false

/-- Model of a v8 JavaScript value as observed by `PHPValue::from` and
produced by `js_value_from_zval` (src/lib.rs).  `array` lists the indexed
elements in index order; `object` lists the own properties in the engine's
own-property enumeration order (no duplicate keys arise from the engine);
`function` carries the optional associated-data slot installed by
`FunctionBuilder::data` (the registered callback name); `exotic` stands for
any remaining engine value (symbol, bigint, ...) together with its lossy
string coercion. -/
inductive JSValue where
  | string (s : String)
  | null
  | undefined
  | boolean (b : Bool)
  | number (d : F64)
  | array (elems : List JSValue)
  | function (data : Option String)
  | object (props : List (String × JSValue))
  | exotic (coerced : String)

/-- v8 `Value::is_string`. -/
def JSValue.is_string : JSValue → Bool
  | .string _ => true
  | _ => false

/-- v8 `Value::is_null_or_undefined`. -/
def JSValue.is_null_or_undefined : JSValue → Bool
  | .null => true
  | .undefined => true
  | _ => false

/-- v8 `Value::is_boolean`. -/
def JSValue.is_boolean : JSValue → Bool
  | .boolean _ => true
  | _ => false

/-- v8 `Value::is_int32`: a number whose value is exactly a signed 32-bit
integer. -/
def JSValue.is_int32 : JSValue → Bool
  | .number d => d.isInt32
  | _ => false

/-- v8 `Value::is_number`: true for every number, including the int32 ones
(the predicates overlap; `PHPValue::from` relies on testing `is_int32`
first). -/
def JSValue.is_number : JSValue → Bool
  | .number _ => true
  | _ => false

/-- v8 `Value::is_array`. -/
def JSValue.is_array : JSValue → Bool
  | .array _ => true
  | _ => false

/-- v8 `Value::is_function`. -/
def JSValue.is_function : JSValue → Bool
  | .function _ => true
  | _ => false

/-- v8 `Value::is_object`: arrays and functions are objects too (the
predicates overlap; `PHPValue::from` tests `is_array` and `is_function`
first). -/
def JSValue.is_object : JSValue → Bool
  | .array _ => true
  | .function _ => true
  | .object _ => true
  | _ => false

/-- v8 `Value::to_rust_string_lossy`.  `PHPValue::from` only invokes it on
strings (where it returns the string itself) and on exotic values (where the
model carries the coercion); the remaining branches follow the JavaScript
ToString coercions where they are simple, and are placeholders (never
reached by any theorem below) where numeric formatting would be needed. -/
def JSValue.to_rust_string_lossy : JSValue → String
  | .string s => s
  | .null => "null"
  | .undefined => "undefined"
  | .boolean b => if b then "true" else "false"
  | .number (.intVal i) => toString i
  | .number (.nonInt c) => toString c
  | .array _ => ""
  | .function _ => "function"
  | .object _ => "[object Object]"
  | .exotic s => s

/-- v8 `Value::boolean_value`; only invoked on booleans by the source. -/
def JSValue.boolean_value : JSValue → Bool
  | .boolean b => b
  | _ => false

/-- v8 `Value::integer_value`; only invoked by the source on numbers
satisfying `is_int32`, where it yields the integer. -/
def JSValue.integer_value : JSValue → Option Int
  | .number (.intVal i) => some i
  | _ => none

/-- v8 `Value::number_value`; only invoked by the source on numbers. -/
def JSValue.number_value : JSValue → Option F64
  | .number d => some d
  | _ => none

/-- Indexed elements of an array value (empty on non-arrays). -/
def JSValue.arrayElems : JSValue → List JSValue
  | .array elems => elems
  | _ => []

/-- Own properties of an object value, in enumeration order (empty on
non-objects). -/
def JSValue.objectProps : JSValue → List (String × JSValue)
  | .object props => props
  | _ => []

/-- The host value type of src/lib.rs:

  pub enum PHPValue { String, None, Boolean, Float, Integer, Array, Object }

`Object` carries Rust's `HashMap<String, PHPValue>`; the model represents a
hash map as its association list in iteration order (keys never repeat).
Lean equality of the lists implies the extensional (`PartialEq`) equality of
the hash maps, so every equation proved below about `Object` values is
sound for the Rust type. -/
inductive PHPValue where
  | String (s : String)
  | None
  | Boolean (b : Bool)
  | Float (d : F64)
  | Integer (i : Int)
  | Array (elems : List PHPValue)
  | Object (props : List (String × PHPValue))

/-- Rust `HashMap::insert` on the association-list model: overwrite an
existing binding of the key in place, otherwise append the new binding. -/
def HMap.insert : List (String × PHPValue) → String → PHPValue → List (String × PHPValue)
  | [], k, v => [(k, v)]
  | (k0, v0) :: rest, k, v =>
    if k0 = k then (k, v) :: rest
    else (k0, v0) :: HMap.insert rest k v

/-- Insert a list of bindings left to right (the `for` loop of the object
branch of `PHPValue::from`, which inserts each converted property into the
hash map in enumeration order). -/
def HMap.insertList : List (String × PHPValue) → List (String × PHPValue) → List (String × PHPValue)
  | m, [] => m
  | m, (k, v) :: rest => HMap.insertList (HMap.insert m k v) rest

/-- Key membership in the association-list model of a hash map. -/
def HMap.hasKey (k : String) : List (String × PHPValue) → Bool
  | [] => false
  | (k0, _) :: rest => decide (k0 = k) || HMap.hasKey k rest

/-- The keys of the association list never repeat: the invariant of every
list standing for a hash map. -/
def HMap.nodupKeys : List (String × PHPValue) → Bool
  | [] => true
  | (k, _) :: rest => !HMap.hasKey k rest && HMap.nodupKeys rest

mutual

/-- `PHPValue::from(result, scope)` of src/lib.rs (lines 24-69): classify a
JavaScript value by the if-chain of engine predicates, first match winning,
and build the host value.  The Rust code calls `.unwrap()` on the fallible
engine accessors; the model propagates `none` wherever such an unwrap would
panic, so totality of the conversion is the theorem that `none` never
occurs. -/
def PHPValue.fromJS : JSValue → Option PHPValue
  | .string s => some (.String s)
  | .null => some .None
  | .undefined => some .None
  | .boolean b => some (.Boolean b)
  | .number d =>
    if (JSValue.number d).is_int32 then
      ((JSValue.number d).integer_value).map .Integer
    else
      ((JSValue.number d).number_value).map .Float
  | .array elems => (fromJSList elems).map .Array
  | .function _ => some (.String "Function")
  | .object props =>
    (fromJSProps props).map (fun l => .Object (HMap.insertList [] l))
  | .exotic s => some (.String s)

/-- The element loop of the array branch: `array.get_index(scope, index)`
for each index in order, recursively converted.  In the model `get_index`
always yields the element, matching the engine on a dense array. -/
def fromJSList : List JSValue → Option (List PHPValue)
  | [] => some []
  | e :: rest => do
    let p ← PHPValue.fromJS e
    let ps ← fromJSList rest
    pure (p :: ps)

/-- The property loop of the object branch: for each own property name in
enumeration order, `object.get` the value and convert it recursively. -/
def fromJSProps : List (String × JSValue) → Option (List (String × PHPValue))
  | [] => some []
  | (k, v) :: rest => do
    let p ← PHPValue.fromJS v
    let ps ← fromJSProps rest
    pure ((k, p) :: ps)

end

/-- Model of a PHP zval as observed by `js_value_from_zval`, `__set` and
the trampoline (src/lib.rs).  An array entry is a triple as yielded by
`zend_array.iter()` (src/lib.rs line 104): the numeric index, the string
key when the entry is string-keyed (`none` for integer-keyed entries), and
the element zval; the PHP engine normalizes canonical decimal-integer
string keys to integer keys on insertion, so a `some` key is never such a
string.  `object`, `resource` and `callable` stand for the zval types
outside the scalar/array union handled by `js_value_from_zval`; `callable`
is a closure-like zval for which `Zval::is_callable` holds, distinguished
by an opaque identity. -/
inductive Zval where
  | string (s : String)
  | long (i : Int)
  | double (d : F64)
  | bool (b : Bool)
  | null
  | array (entries : List (Int × Option String × Zval))
  | object (id : Nat)
  | resource (id : Nat)
  | callable (id : Nat)

/-- A PHP array entry: numeric index, optional string key, element. -/
abbrev ZEntry : Type := Int × Option String × Zval

/-- `Zval::is_string`. -/
def Zval.is_string : Zval → Bool
  | .string _ => true
  | _ => false

/-- `Zval::is_long`. -/
def Zval.is_long : Zval → Bool
  | .long _ => true
  | _ => false

/-- `Zval::is_double`. -/
def Zval.is_double : Zval → Bool
  | .double _ => true
  | _ => false

/-- `Zval::is_bool`. -/
def Zval.is_bool : Zval → Bool
  | .bool _ => true
  | _ => false

/-- `Zval::is_null`. -/
def Zval.is_null : Zval → Bool
  | .null => true
  | _ => false

/-- `Zval::is_array`. -/
def Zval.is_array : Zval → Bool
  | .array _ => true
  | _ => false

/-- `Zval::is_callable`: true for closure-like zvals.  (PHP additionally
treats some strings and arrays as callables; the model restricts the
callable case to the `callable` constructor, which is all the claims
quantify over.) -/
def Zval.is_callable : Zval → Bool
  | .callable _ => true
  | _ => false

/-- `Zval::double()`: the double of a double zval, or the `i64 -> f64` cast
of a long zval (this is the accessor `js_value_from_zval` unwraps under
`is_long() || is_double()`). -/
def Zval.doubleVal : Zval → Option F64
  | .double d => some d
  | .long i => some (.intVal i)
  | _ => none

/-- The `has_string_keys` flag computed by the array loop of
`js_value_from_zval` (src/lib.rs lines 103-111): set when any entry is
string-keyed. -/
def zvalHasStringKeys (entries : List ZEntry) : Bool :=
  entries.any (fun e => e.2.1.isSome)

/-- The `keys` vector of the array loop of `js_value_from_zval`: the string
key when present, otherwise the stringified numeric index. -/
def zvalKeys : List ZEntry → List String
  | [] => []
  | (idx, key, _) :: rest =>
    (match key with
     | some k => k
     | none => toString idx) :: zvalKeys rest

mutual

/-- `js_value_from_zval(scope, zval)` of src/lib.rs (lines 77-125): convert
a PHP zval to a JavaScript value by the if-chain of zval predicates.  The
`is_true`/`is_false` branches of the source (lines 90-95) are subsumed by
the `is_bool` branch tested before them and are therefore dead code; the
final line converts every remaining zval type to JavaScript null. -/
def js_value_from_zval : Zval → JSValue
  | .string s => .string s
  | .long i => .number (.intVal i)
  | .double d => .number d
  | .bool b => .boolean b
  | .null => .null
  | .array entries =>
    if zvalHasStringKeys entries then
      .object ((zvalKeys entries).zip (zvalValues entries))
    else
      .array (zvalValues entries)
  | .object _ => .null
  | .resource _ => .null
  | .callable _ => .null

/-- The `values` vector of the array loop of `js_value_from_zval`: each
element converted recursively, in iteration order. -/
def zvalValues : List ZEntry → List JSValue
  | [] => []
  | (_, _, z) :: rest => js_value_from_zval z :: zvalValues rest

end

/-- The numeric value of a decimal digit character. -/
def digitVal (c : Char) : Option Nat :=
  if decide ('0' ≤ c) && decide (c ≤ '9') then some (c.toNat - '0'.toNat)
  else none

/-- Left-to-right decimal accumulation; fails on a non-digit. -/
def decDigitsAux : Nat → List Char → Option Nat
  | acc, [] => some acc
  | acc, c :: rest =>
    match digitVal c with
    | some d => decDigitsAux (acc * 10 + d) rest
    | none => none

/-- PHP's array-key normalization: a string key that is the canonical
decimal representation of a platform integer (no leading zeros, no plus
sign, no nonzero value spelled with a minus-zero prefix, in signed 64-bit
range) is stored as that integer key; every other string stays a string
key. -/
def phpArrayKeyNormalize (k : String) : Option Int :=
  match k.data with
  | [] => none
  | '-' :: rest =>
    match rest with
    | [] => none
    | c :: _ =>
      if c = '0' then none
      else
        match decDigitsAux 0 rest with
        | some n => if 0 < n ∧ (n : Int) ≤ 2 ^ 63 then some (-(n : Int)) else none
        | none => none
  | c :: rest =>
    if c = '0' && !rest.isEmpty then none
    else
      match decDigitsAux 0 k.data with
      | some n => if (n : Int) < 2 ^ 63 then some (n : Int) else none
      | none => none

mutual

/-- The `ZvalConvert`/`IntoZval` instance derived on `PHPValue`
(src/lib.rs line 12): scalars map to the corresponding zval type, `Array`
to a PHP array with sequential integer keys from 0, and `Object` to a PHP
array keyed by its string keys (subject to the engine's numeric-key
normalization). -/
def PHPValue.intoZval : PHPValue → Zval
  | .String s => .string s
  | .None => .null
  | .Boolean b => .bool b
  | .Float d => .double d
  | .Integer i => .long i
  | .Array elems => .array (intoZvalSeq 0 elems)
  | .Object props => .array (intoZvalMap props)

/-- Sequential integer-keyed entries for a `PHPValue::Array`. -/
def intoZvalSeq : Int → List PHPValue → List ZEntry
  | _, [] => []
  | i, v :: rest => (i, none, v.intoZval) :: intoZvalSeq (i + 1) rest

/-- Entries for a `PHPValue::Object`: each key inserted under PHP's
array-key normalization. -/
def intoZvalMap : List (String × PHPValue) → List ZEntry
  | [] => []
  | (k, v) :: rest =>
    (match phpArrayKeyNormalize k with
     | some i => (i, none, v.intoZval)
     | none => (0, some k, v.intoZval)) :: intoZvalMap rest

end

mutual

/-- The host values whose conversion to a script value and back is lossless:
floats that are not exactly a 32-bit integer (those come back as
`Integer`), integers of 32-bit magnitude (larger ones come back as
`Float`), and objects that are nonempty (an empty map becomes an empty PHP
array, hence a dense script array), have no key subject to PHP's numeric
normalization (such keys become integer keys, making the PHP array
all-numeric) and satisfy the hash-map no-duplicate-key invariant. -/
def PHPValue.roundTrippable : PHPValue → Bool
  | .String _ => true
  | .None => true
  | .Boolean _ => true
  | .Float d => !d.isInt32
  | .Integer i => decide (-(2 ^ 31) ≤ i ∧ i < 2 ^ 31)
  | .Array elems => roundTrippableList elems
  | .Object props =>
    !props.isEmpty && HMap.nodupKeys props && roundTrippableProps props

/-- Every element of the sequence is round-trippable. -/
def roundTrippableList : List PHPValue → Bool
  | [] => true
  | v :: rest => v.roundTrippable && roundTrippableList rest

/-- Every key escapes numeric normalization and every value is
round-trippable. -/
def roundTrippableProps : List (String × PHPValue) → Bool
  | [] => true
  | (k, v) :: rest =>
    (phpArrayKeyNormalize k).isNone && v.roundTrippable &&
      roundTrippableProps rest

end

/-- Modelled from the spec: the callback registry held in the runtime state
(`state.callbacks` in src/lib.rs line 261; the `JSRuntime` definition in
runtime.rs is not among the sources).  Per the spec it is a per-runtime map
from a symbolic property name to an opaque host callable. -/
abbrev CallbackRegistry : Type := List (String × Zval)

/-- `HashMap::get` on the callback registry. -/
def registryLookup (name : String) : CallbackRegistry → Option Zval
  | [] => none
  | (k, cb) :: rest => if k = name then some cb else registryLookup name rest

/-- Modelled from the spec: `JSRuntime::add_callback` (runtime.rs is not
among the sources) stores a host callable in the registry under a name;
per the spec a name maps to at most one callable and re-assignment
overwrites the previous entry. -/
def registryInsert : CallbackRegistry → String → Zval → CallbackRegistry
  | [], name, cb => [(name, cb)]
  | (k, cb0) :: rest, name, cb =>
    if k = name then (name, cb) :: rest
    else (k, cb0) :: registryInsert rest name cb

/-- Outcome of one run of the trampoline `php_callback` (src/lib.rs lines
252-286): return without touching the return-value slot (the engine then
hands `undefined` to the calling script), set the return-value slot to a
script value, or panic out of the callback (a Rust `unwrap` on a failure),
which unwinds across the engine's C call frame. -/
inductive TrampolineResult where
  | emptyReturn
  | set (v : JSValue)
  | panicked

/-- The script value the calling script observes: an untouched
return-value slot reads as `undefined`; a panic produces no value at all. -/
def TrampolineResult.jsResult : TrampolineResult → Option JSValue
  | .emptyReturn => some .undefined
  | .set v => some v
  | .panicked => none

/-- `php_callback` of src/lib.rs (lines 252-286): resolve the callback name
(the bound function's associated data) in the registry; on a missing or
non-callable entry log and return; otherwise convert every argument
left-to-right with `PHPValue::from`, invoke the host callable on them via
`try_call`, and `.unwrap()` the result — an `Err` from the host callable
therefore panics rather than being absorbed.  The host callable itself is
external, so its behavior is a parameter: `tryCall` returns `none` exactly
when `ZendCallable::try_call` would return `Err`. -/
def php_callback (callbacks : CallbackRegistry) (callbackName : String)
    (args : List JSValue) (tryCall : List PHPValue → Option Zval) :
    TrampolineResult :=
  match registryLookup callbackName callbacks with
  | none => .emptyReturn
  | some callback =>
    if callback.is_callable = false then .emptyReturn
    else
      match fromJSList args with
      | none => .panicked
      | some php_args =>
        match tryCall php_args with
        | none => .panicked
        | some return_value => .set (js_value_from_zval return_value)

/-- The state of a `V8Js` binding-surface instance that `__set` touches:
the configured global name, the properties of the namespace object when the
runtime's global lookup finds it (`None` models `get_global` missing, which
`__set` treats as a recoverable no-op), and the callback registry. -/
structure V8JsState where
  global_name : String
  phpGlobalProps : Option (List (String × JSValue))
  callbacks : CallbackRegistry

/-- v8 `Object::set` on the namespace object: overwrite the property in
place or append it. -/
def objSet : List (String × JSValue) → String → JSValue → List (String × JSValue)
  | [], k, v => [(k, v)]
  | (k0, v0) :: rest, k, v =>
    if k0 = k then (k, v) :: rest
    else (k0, v0) :: objSet rest k v

/-- `V8Js::__set` of src/lib.rs (lines 210-237): if the runtime has no
global under the configured name, return doing nothing; otherwise install
on the namespace object either a bound function whose associated data is
the property name (when the assigned zval is callable) or the converted
value (otherwise), and afterwards, when the zval is callable, register a
shallow clone of it in the callback registry under the property name. -/
def V8Js.__set (st : V8JsState) (property : String) (value : Zval) : V8JsState :=
  match st.phpGlobalProps with
  | none => st
  | some props =>
    let js_value : JSValue :=
      if value.is_callable then .function (some property)
      else js_value_from_zval value
    let st' : V8JsState := { st with phpGlobalProps := some (objSet props property js_value) }
    if value.is_callable then
      { st' with callbacks := registryInsert st'.callbacks property value }
    else st'

/-- Modelled from the spec: the result type of `JSRuntime::execute_string`
(runtime.rs is not among the sources).  Per the spec the runtime call
returns the last-expression value, or no value when the script produced
none, and fails on a compile error, an uncaught script exception, or a
forced termination (time limit, memory limit or the exit bridge). -/
inductive ScriptFailure where
  | compileError
  | uncaughtException
  | terminated

/-- The host-facing exception raised by `execute_string`:
`PhpException::default` carries a message and the fixed default exception
class; src/lib.rs line 206 always constructs it with the message
"Exception". -/
structure PhpException where
  message : String

/-- `V8Js::execute_string` of src/lib.rs (lines 179-208): run the source
through the runtime (the runtime outcome is the parameter, since runtime.rs
is modelled from the spec), convert a produced value with `PHPValue::from`,
map no value to `PHPValue::None`, and map every runtime failure to the one
fixed `PhpException`.  The outer `Option` propagates a panic inside
`PHPValue::from` (proved unreachable below). -/
def V8Js.execute_string (runtimeResult : Except ScriptFailure (Option JSValue)) :
    Option (Except PhpException PHPValue) :=
  match runtimeResult with
  | .ok (some result) =>
    match PHPValue.fromJS result with
    | some v => some (.ok v)
    | none => none
  | .ok none => some (.ok PHPValue.None)
  | .error _ => some (.error ⟨"Exception"⟩)

/-- The isolate-level actions `php_callback_exit` can take, in order. -/
inductive IsolateAction where
  | compileScript (source : String)
  | terminateExecution
  | runScript

/-- `php_callback_exit` of src/lib.rs (lines 324-342): if the isolate is
already terminating execution, return immediately with no action; otherwise
compile the trivial infinite-loop script, request termination on the
isolate, and run the compiled script so the engine observes the termination
flag and unwinds.  The input is v8 `is_execution_terminating` on entry; the
output is the sequence of isolate actions performed. -/
def php_callback_exit (isExecutionTerminating : Bool) : List IsolateAction :=
  if isExecutionTerminating then []
  else [.compileScript "for(;;);", .terminateExecution, .runScript]

/-! Helper lemmas. -/

/-- Looking up the name just inserted yields the inserted callable,
whatever was registered before. -/
theorem registryLookup_insert (cbs : CallbackRegistry) (name : String) (cb : Zval) :
    registryLookup name (registryInsert cbs name cb) = some cb := by
  induction cbs with
  | nil => simp [registryInsert, registryLookup]
  | cons hd rest ih =>
    obtain ⟨k, cb0⟩ := hd
    by_cases hk : k = name
    · simp [registryInsert, registryLookup, hk]
    · simp [registryInsert, registryLookup, hk, ih]

/-- The element loop of `PHPValue::from` is `mapM` of the conversion. -/
theorem fromJSList_eq_mapM (l : List JSValue) :
    fromJSList l = l.mapM PHPValue.fromJS := by
  induction l with
  | nil => rw [List.mapM_nil]; rfl
  | cons e rest ih => rw [List.mapM_cons, ← ih]; rfl

/-- The property loop of `PHPValue::from` is `mapM` of the conversion of
each property value, keeping its key. -/
theorem fromJSProps_eq_mapM (ps : List (String × JSValue)) :
    fromJSProps ps =
      ps.mapM (fun kv => (PHPValue.fromJS kv.2).map (fun p => (kv.1, p))) := by
  induction ps with
  | nil => rw [List.mapM_nil]; rfl
  | cons kv rest ih =>
    obtain ⟨k, v⟩ := kv
    rw [List.mapM_cons, ← ih]
    cases h : PHPValue.fromJS v <;> simp [fromJSProps, h]

/-- `PHPValue::from` never hits a failing unwrap: every JavaScript value
converts. -/
theorem fromJS_isSome (v : JSValue) : (PHPValue.fromJS v).isSome = true := by
  refine PHPValue.fromJS.induct
    (fun v => (PHPValue.fromJS v).isSome = true)
    (fun ps => (fromJSProps ps).isSome = true)
    (fun l => (fromJSList l).isSome = true)
    ?_ ?_ ?_ ?_ ?_ ?_ ?_ ?_ ?_ ?_ ?_ ?_ ?_ ?_ v
  · intro s; simp [PHPValue.fromJS]
  · simp [PHPValue.fromJS]
  · simp [PHPValue.fromJS]
  · intro b; simp [PHPValue.fromJS]
  · intro d h
    cases d with
    | intVal i => simp [PHPValue.fromJS, h, JSValue.integer_value]
    | nonInt c => simp [JSValue.is_int32, F64.isInt32] at h
  · intro d h
    simp [PHPValue.fromJS, h, JSValue.number_value]
  · intro elems ih
    simp [PHPValue.fromJS, Option.isSome_map, ih]
  · intro data; simp [PHPValue.fromJS]
  · intro props ih
    simp [PHPValue.fromJS, Option.isSome_map, ih]
  · intro s; simp [PHPValue.fromJS]
  · simp [fromJSList]
  · intro e rest ih ihs
    obtain ⟨p, hp⟩ := Option.isSome_iff_exists.mp ih
    obtain ⟨ps, hps⟩ := Option.isSome_iff_exists.mp ihs
    simp [fromJSList, hp, hps]
  · simp [fromJSProps]
  · intro k v rest ih ihs
    obtain ⟨p, hp⟩ := Option.isSome_iff_exists.mp ih
    obtain ⟨ps, hps⟩ := Option.isSome_iff_exists.mp ihs
    simp [fromJSProps, hp, hps]

/-! Claim theorems. -/

/-- C9: whenever script calls the pre-registered exit bridge, an isolate
already terminating execution causes no further action (the terminate
request is idempotent); otherwise the bridge compiles the trivial
infinite-loop script, requests termination on the isolate, and then runs
the loop so the VM observes the termination flag and unwinds. -/
theorem php_callback_exit_spec :
    php_callback_exit true = [] ∧
    php_callback_exit false =
      [.compileScript "for(;;);", .terminateExecution, .runScript] :=
  ⟨rfl, rfl⟩

/-- C10: a host zval outside the string/long/double/bool/null/array union
handled by `js_value_from_zval` — a host object or resource, for example —
falls through every branch and is silently converted to script null, not
to an error or a placeholder string. -/
theorem js_value_from_zval_outside_union (zv : Zval)
    (hs : zv.is_string = false) (hl : zv.is_long = false)
    (hd : zv.is_double = false) (hb : zv.is_bool = false)
    (hn : zv.is_null = false) (ha : zv.is_array = false) :
    js_value_from_zval zv = .null := by
  cases zv <;> simp_all [Zval.is_string, Zval.is_long, Zval.is_double,
    Zval.is_bool, Zval.is_null, Zval.is_array, js_value_from_zval]

/-- Witness for C10: a host object zval converts to script null. -/
theorem js_value_from_zval_outside_union_witness :
    js_value_from_zval (.object 0) = .null :=
  js_value_from_zval_outside_union (.object 0) rfl rfl rfl rfl rfl rfl

/-- C3 (the code, not the claim): a registered, callable host callable
whose invocation fails makes the trampoline panic — `try_call(...).unwrap()`
at src/lib.rs line 283 — instead of absorbing the failure and setting a
placeholder result, so the failure unwinds out of the VM call frame. -/
theorem php_callback_panics_on_host_failure :
    php_callback [("f", .callable 0)] "f" [] (fun _ => none) =
      .panicked := rfl

/-- C6: invoking a bound function whose name misses the registry, or whose
registry entry is not callable, makes the trampoline return with the
return-value slot untouched, so the calling script receives `undefined` and
no engine-level exception is raised; that `undefined` converts to the None
host value. -/
theorem php_callback_miss_is_silent_noop (callbacks : CallbackRegistry)
    (callbackName : String) (args : List JSValue)
    (tryCall : List PHPValue → Option Zval)
    (hmiss : registryLookup callbackName callbacks = none ∨
      ∃ cb, registryLookup callbackName callbacks = some cb ∧
        cb.is_callable = false) :
    (php_callback callbacks callbackName args tryCall).jsResult =
      some .undefined ∧
    PHPValue.fromJS .undefined = some .None := by
  refine ⟨?_, rfl⟩
  rcases hmiss with h | ⟨cb, h, hcb⟩
  · simp [php_callback, h, TrampolineResult.jsResult]
  · simp [php_callback, h, hcb, TrampolineResult.jsResult]

/-- Witness for C6: calling a bound name against an empty registry returns
script undefined. -/
theorem php_callback_miss_is_silent_noop_witness :
    (php_callback [] "f" [] (fun _ => none)).jsResult = some .undefined ∧
    PHPValue.fromJS .undefined = some .None :=
  php_callback_miss_is_silent_noop [] "f" [] (fun _ => none) (.inl rfl)

/-- C8: property assignment on the binding surface, when the runtime's
global lookup finds the namespace object: a non-callable zval is stored on
the namespace object through the value converter; a callable zval installs
a bound function carrying the property name as associated data on the
namespace object AND registers the callable in the callback registry under
that name, where re-assignment under the same name overwrites the previous
entry. -/
theorem v8js_set_spec (st : V8JsState) (props : List (String × JSValue))
    (property : String) (value : Zval)
    (hglobal : st.phpGlobalProps = some props) :
    (value.is_callable = false →
      V8Js.__set st property value =
        { st with phpGlobalProps := some (objSet props property (js_value_from_zval value)) }) ∧
    (value.is_callable = true →
      V8Js.__set st property value =
        { st with phpGlobalProps := some (objSet props property (.function (some property))),
                  callbacks := registryInsert st.callbacks property value }) ∧
    (∀ (cbs : CallbackRegistry) (cb : Zval),
      registryLookup property (registryInsert cbs property cb) = some cb) := by
  refine ⟨?_, ?_, fun cbs cb => registryLookup_insert cbs property cb⟩
  · intro hcb
    simp [V8Js.__set, hglobal, hcb]
  · intro hcb
    simp [V8Js.__set, hglobal, hcb]

/-- Witness for C8: assigning a callable to a fresh binding surface
installs the bound function and registers the callable. -/
theorem v8js_set_spec_witness :
    V8Js.__set ⟨"PHP", some [], []⟩ "add" (.callable 7) =
      ⟨"PHP", some [("add", .function (some "add"))], [("add", .callable 7)]⟩ :=
  (v8js_set_spec ⟨"PHP", some [], []⟩ [] "add" (.callable 7) rfl).2.1 rfl

/-- C7: `PHPValue::from` is total — every well-formed (finite, acyclic)
JavaScript value, however deeply nested its arrays and objects, converts to
exactly one host value; no unwrap in the conversion can fail. -/
theorem phpvalue_from_total (v : JSValue) :
    ∃ p, PHPValue.fromJS v = some p :=
  Option.isSome_iff_exists.mp (fromJS_isSome v)

/-- C4: `execute_string` returns the converted value of the script's last
expression when the runtime produces one, returns the None host value when
the script produced no value, and raises the one fixed exception — default
exception class, message "Exception" — exactly when the runtime fails
(compile error, uncaught script exception, or forced termination); the
conversion of a produced value never panics. -/
theorem execute_string_spec (runtimeResult : Except ScriptFailure (Option JSValue)) :
    (∀ v, runtimeResult = .ok (some v) →
      ∃ p, PHPValue.fromJS v = some p ∧
        V8Js.execute_string runtimeResult = some (.ok p)) ∧
    (runtimeResult = .ok none →
      V8Js.execute_string runtimeResult = some (.ok PHPValue.None)) ∧
    (V8Js.execute_string runtimeResult = some (.error ⟨"Exception"⟩) ↔
      ∃ e, runtimeResult = .error e) ∧
    V8Js.execute_string runtimeResult ≠ none := by
  refine ⟨?_, ?_, ?_, ?_⟩
  · rintro v rfl
    obtain ⟨p, hp⟩ := Option.isSome_iff_exists.mp (fromJS_isSome v)
    exact ⟨p, hp, by simp [V8Js.execute_string, hp]⟩
  · rintro rfl
    simp [V8Js.execute_string]
  · constructor
    · intro h
      match runtimeResult with
      | .error e => exact ⟨e, rfl⟩
      | .ok none => simp [V8Js.execute_string] at h
      | .ok (some v) =>
        obtain ⟨p, hp⟩ := Option.isSome_iff_exists.mp (fromJS_isSome v)
        simp [V8Js.execute_string, hp] at h
    · rintro ⟨e, rfl⟩
      simp [V8Js.execute_string]
  · match runtimeResult with
    | .error e => simp [V8Js.execute_string]
    | .ok none => simp [V8Js.execute_string]
    | .ok (some v) =>
      obtain ⟨p, hp⟩ := Option.isSome_iff_exists.mp (fromJS_isSome v)
      simp [V8Js.execute_string, hp]

/-- Witness for C4: a runtime compile error surfaces as the fixed
exception. -/
theorem execute_string_spec_witness :
    V8Js.execute_string (.error .compileError) = some (.error ⟨"Exception"⟩) :=
  (execute_string_spec (.error .compileError)).2.2.1.mpr ⟨.compileError, rfl⟩

/-- C5: converting a host array zval: when some entry carries a string
(non-numeric) key, the result is a plain script object whose properties
are the stringified indices/keys paired with the recursively converted
elements; when the array is empty or every entry is integer-keyed, the
result is a dense script array of the recursively converted elements in
iteration order. -/
theorem js_value_from_zval_array_spec (entries : List ZEntry) :
    (zvalHasStringKeys entries = true →
      js_value_from_zval (.array entries) =
        .object ((zvalKeys entries).zip (zvalValues entries))) ∧
    (zvalHasStringKeys entries = false →
      js_value_from_zval (.array entries) = .array (zvalValues entries)) ∧
    zvalValues entries = entries.map (fun e => js_value_from_zval e.2.2) ∧
    zvalKeys entries =
      entries.map (fun e =>
        match e.2.1 with
        | some k => k
        | none => toString e.1) := by
  refine ⟨?_, ?_, ?_, ?_⟩
  · intro h; simp [js_value_from_zval, h]
  · intro h; simp [js_value_from_zval, h]
  · induction entries with
    | nil => simp [zvalValues]
    | cons e rest ih =>
      obtain ⟨idx, key, z⟩ := e
      simp [zvalValues, ih]
  · induction entries with
    | nil => simp [zvalKeys]
    | cons e rest ih =>
      obtain ⟨idx, key, z⟩ := e
      simp [zvalKeys, ih]

/-- Witness for C5: a mixed array with one integer-keyed and one
string-keyed entry becomes a plain object keyed by the stringified index
and the string key. -/
theorem js_value_from_zval_array_spec_witness :
    js_value_from_zval (.array [(0, none, .long 1), (0, some "k", .null)]) =
      .object [("0", .number (.intVal 1)), ("k", .null)] :=
  (js_value_from_zval_array_spec [(0, none, .long 1), (0, some "k", .null)]).1 rfl

/-- The array branch of `PHPValue::from`, phrased with `mapM`. -/
theorem fromJS_array_eq (elems : List JSValue) :
    PHPValue.fromJS (.array elems) =
      (elems.mapM PHPValue.fromJS).map .Array := by
  rw [← fromJSList_eq_mapM]; simp [PHPValue.fromJS]

/-- The object branch of `PHPValue::from`, phrased with `mapM`. -/
theorem fromJS_object_eq (props : List (String × JSValue)) :
    PHPValue.fromJS (.object props) =
      (props.mapM
          (fun kv => (PHPValue.fromJS kv.2).map (fun p => (kv.1, p)))).map
        (fun l => PHPValue.Object (HMap.insertList [] l)) := by
  rw [← fromJSProps_eq_mapM]; simp [PHPValue.fromJS]

/-- C2: `PHPValue::from` classifies a script value by testing, in order
with the first match winning: string, then null/undefined, then boolean,
then 32-bit integer, then general number (yielding Float), then array
(converting each indexed element recursively, in index order), then
callable (yielding the fixed placeholder string "Function"), then object
(enumerating the own property names and converting each value
recursively), and otherwise falls back to the string coercion of the
value. -/
theorem phpvalue_from_classification (v : JSValue) :
    (v.is_string = true →
      PHPValue.fromJS v = some (.String v.to_rust_string_lossy)) ∧
    (v.is_string = false → v.is_null_or_undefined = true →
      PHPValue.fromJS v = some .None) ∧
    (v.is_string = false → v.is_null_or_undefined = false →
      v.is_boolean = true →
      PHPValue.fromJS v = some (.Boolean v.boolean_value)) ∧
    (v.is_string = false → v.is_null_or_undefined = false →
      v.is_boolean = false → v.is_int32 = true →
      PHPValue.fromJS v = v.integer_value.map .Integer) ∧
    (v.is_string = false → v.is_null_or_undefined = false →
      v.is_boolean = false → v.is_int32 = false → v.is_number = true →
      PHPValue.fromJS v = v.number_value.map .Float) ∧
    (v.is_string = false → v.is_null_or_undefined = false →
      v.is_boolean = false → v.is_int32 = false → v.is_number = false →
      v.is_array = true →
      PHPValue.fromJS v = (v.arrayElems.mapM PHPValue.fromJS).map .Array) ∧
    (v.is_string = false → v.is_null_or_undefined = false →
      v.is_boolean = false → v.is_int32 = false → v.is_number = false →
      v.is_array = false → v.is_function = true →
      PHPValue.fromJS v = some (.String "Function")) ∧
    (v.is_string = false → v.is_null_or_undefined = false →
      v.is_boolean = false → v.is_int32 = false → v.is_number = false →
      v.is_array = false → v.is_function = false → v.is_object = true →
      PHPValue.fromJS v =
        (v.objectProps.mapM
            (fun kv => (PHPValue.fromJS kv.2).map (fun p => (kv.1, p)))).map
          (fun l => PHPValue.Object (HMap.insertList [] l))) ∧
    (v.is_string = false → v.is_null_or_undefined = false →
      v.is_boolean = false → v.is_int32 = false → v.is_number = false →
      v.is_array = false → v.is_function = false → v.is_object = false →
      PHPValue.fromJS v = some (.String v.to_rust_string_lossy)) := by
  cases v with
  | number d =>
    cases hd : d.isInt32 <;>
      simp [PHPValue.fromJS, JSValue.is_string, JSValue.is_null_or_undefined,
        JSValue.is_boolean, JSValue.is_int32, JSValue.is_number, hd]
  | array elems =>
    simp [fromJS_array_eq, JSValue.is_string, JSValue.is_null_or_undefined,
      JSValue.is_boolean, JSValue.is_int32, JSValue.is_number,
      JSValue.is_array, JSValue.arrayElems]
  | object props =>
    simp [fromJS_object_eq, JSValue.is_string, JSValue.is_null_or_undefined,
      JSValue.is_boolean, JSValue.is_int32, JSValue.is_number,
      JSValue.is_array, JSValue.is_function, JSValue.is_object,
      JSValue.objectProps]
  | _ =>
    simp [PHPValue.fromJS, JSValue.is_string, JSValue.is_null_or_undefined,
      JSValue.is_boolean, JSValue.is_int32, JSValue.is_number,
      JSValue.is_array, JSValue.is_function, JSValue.is_object,
      JSValue.to_rust_string_lossy, JSValue.boolean_value]

/-- Witness for C2: the int32-number clause at the concrete value 5. -/
theorem phpvalue_from_classification_witness :
    PHPValue.fromJS (.number (.intVal 5)) = some (.Integer 5) := by
  have h :=
    (phpvalue_from_classification (.number (.intVal 5))).2.2.2.1
      rfl rfl rfl (by decide)
  simpa [JSValue.integer_value] using h

/-- C1 (the code, not the claim): the round trip is not the identity on
every host value built from the representable variants — the float 0.0
(which has no unrepresentable sub-part) converts to a script number that
satisfies the engine's 32-bit-integer test and therefore comes back as
the host integer 0, not as a float. -/
theorem roundTrip_counterexample :
    PHPValue.fromJS (js_value_from_zval (PHPValue.Float (.intVal 0)).intoZval) ≠
      some (PHPValue.Float (.intVal 0)) := by
  intro h
  exact PHPValue.noConfusion (Option.some.inj h)

/-- Inserting a fresh key appends the binding. -/
theorem HMap.insert_of_not_hasKey (m : List (String × PHPValue)) (k : String)
    (v : PHPValue) (h : HMap.hasKey k m = false) :
    HMap.insert m k v = m ++ [(k, v)] := by
  induction m with
  | nil => rfl
  | cons kv rest ih =>
    obtain ⟨k0, v0⟩ := kv
    simp [HMap.hasKey] at h
    simp [HMap.insert, h.1, ih h.2]

/-- Key membership distributes over append. -/
theorem HMap.hasKey_append (k : String) (m l : List (String × PHPValue)) :
    HMap.hasKey k (m ++ l) = (HMap.hasKey k m || HMap.hasKey k l) := by
  induction m with
  | nil => simp [HMap.hasKey]
  | cons kv rest ih =>
    obtain ⟨k0, v0⟩ := kv
    simp [HMap.hasKey, ih, Bool.or_assoc]

/-- A key absent from the list differs from every key in the list. -/
theorem HMap.hasKey_false_forall (k : String) (l : List (String × PHPValue))
    (h : HMap.hasKey k l = false) : ∀ kv ∈ l, kv.1 ≠ k := by
  induction l with
  | nil => simp
  | cons kv0 rest ih =>
    obtain ⟨k0, v0⟩ := kv0
    simp [HMap.hasKey] at h
    intro kv hkv
    rcases List.mem_cons.mp hkv with hkv | hkv
    · simp [hkv, h.1]
    · exact ih h.2 kv hkv

/-- Inserting a list with pairwise-fresh keys, all absent from the
accumulator, appends it unchanged — the hash map built by the object loop
of `PHPValue::from` lists exactly the properties it was fed. -/
theorem HMap.insertList_append (ps : List (String × PHPValue)) :
    ∀ m, HMap.nodupKeys ps = true →
      (∀ kv ∈ ps, HMap.hasKey kv.1 m = false) →
      HMap.insertList m ps = m ++ ps := by
  induction ps with
  | nil => intro m _ _; simp [HMap.insertList]
  | cons kv rest ih =>
    obtain ⟨k, v⟩ := kv
    intro m hnd hdisj
    simp [HMap.nodupKeys] at hnd
    have hins : HMap.insert m k v = m ++ [(k, v)] :=
      HMap.insert_of_not_hasKey m k v (hdisj (k, v) (by simp))
    have hdisj' : ∀ kv ∈ rest, HMap.hasKey kv.1 (m ++ [(k, v)]) = false := by
      intro kv hkv
      rw [HMap.hasKey_append]
      have h1 : HMap.hasKey kv.1 m = false := hdisj kv (by simp [hkv])
      have h2 : kv.1 ≠ k := by
        intro hk
        exact HMap.hasKey_false_forall k rest hnd.1 kv hkv hk
      simp [h1, HMap.hasKey]
      exact fun hh => h2 hh.symm
    calc HMap.insertList m ((k, v) :: rest)
        = HMap.insertList (m ++ [(k, v)]) rest := by
          simp [HMap.insertList, hins]
      _ = (m ++ [(k, v)]) ++ rest := ih (m ++ [(k, v)]) hnd.2 hdisj'
      _ = m ++ ((k, v) :: rest) := by simp

/-- The entries built from a host sequence are all integer-keyed and carry
the converted elements in order, whatever the starting index. -/
theorem intoZvalSeq_shape (l : List PHPValue) : ∀ i : Int,
    zvalHasStringKeys (intoZvalSeq i l) = false ∧
    zvalValues (intoZvalSeq i l) =
      l.map (fun v => js_value_from_zval v.intoZval) := by
  induction l with
  | nil => intro i; simp [intoZvalSeq, zvalHasStringKeys, zvalValues]
  | cons v rest ih =>
    intro i
    have h := ih (i + 1)
    simp [intoZvalSeq, zvalHasStringKeys, zvalValues] at h ⊢
    exact ⟨h.1, h.2⟩

/-- The entries built from a host map whose keys all escape numeric
normalization are all string-keyed, with the original keys and the
converted values in order; some entry is string-keyed exactly when the map
is nonempty. -/
theorem intoZvalMap_shape (ps : List (String × PHPValue))
    (h : roundTrippableProps ps = true) :
    zvalKeys (intoZvalMap ps) = ps.map Prod.fst ∧
    zvalValues (intoZvalMap ps) =
      ps.map (fun kv => js_value_from_zval kv.2.intoZval) ∧
    zvalHasStringKeys (intoZvalMap ps) = !ps.isEmpty := by
  induction ps with
  | nil => simp [intoZvalMap, zvalKeys, zvalValues, zvalHasStringKeys]
  | cons kv rest ih =>
    obtain ⟨k, v⟩ := kv
    simp [roundTrippableProps, Option.isNone_iff_eq_none] at h
    obtain ⟨⟨hk, _⟩, hrest⟩ := h
    have ihr := ih hrest
    simp [intoZvalMap, hk, zvalKeys, zvalValues, zvalHasStringKeys,
      ihr.1, ihr.2.1]

/-- C1 (amended): the round trip through the script engine is the identity
on every host value in which each float sub-part is not exactly a 32-bit
integer value, each integer sub-part is within signed 32-bit range, and
each object sub-part is nonempty, has pairwise-distinct keys and has no
key that PHP normalizes to an integer array key. -/
theorem roundTrip_of_roundTrippable (v : PHPValue)
    (h : v.roundTrippable = true) :
    PHPValue.fromJS (js_value_from_zval v.intoZval) = some v := by
  refine PHPValue.roundTrippable.induct
    (fun v => v.roundTrippable = true →
      PHPValue.fromJS (js_value_from_zval v.intoZval) = some v)
    (fun ps => roundTrippableProps ps = true →
      fromJSProps (ps.map (fun kv => (kv.1, js_value_from_zval kv.2.intoZval))) =
        some ps)
    (fun l => roundTrippableList l = true →
      fromJSList (l.map (fun w => js_value_from_zval w.intoZval)) = some l)
    ?_ ?_ ?_ ?_ ?_ ?_ ?_ ?_ ?_ ?_ ?_ v h
  · intro s _
    simp [PHPValue.intoZval, js_value_from_zval, PHPValue.fromJS]
  · intro _
    simp [PHPValue.intoZval, js_value_from_zval, PHPValue.fromJS]
  · intro b _
    simp [PHPValue.intoZval, js_value_from_zval, PHPValue.fromJS]
  · intro d hd
    simp [PHPValue.roundTrippable] at hd
    simp [PHPValue.intoZval, js_value_from_zval, PHPValue.fromJS,
      JSValue.is_int32, hd, JSValue.number_value]
  · intro i hi
    simp [PHPValue.roundTrippable, decide_eq_true_eq] at hi
    simp [PHPValue.intoZval, js_value_from_zval, PHPValue.fromJS,
      JSValue.is_int32, F64.isInt32, JSValue.integer_value, hi]
  · intro elems ih hrt
    simp [PHPValue.roundTrippable] at hrt
    have hseq := intoZvalSeq_shape elems 0
    simp [PHPValue.intoZval, js_value_from_zval, hseq.1, hseq.2,
      PHPValue.fromJS, ih hrt]
  · intro props ih hrt
    simp [PHPValue.roundTrippable, Bool.and_eq_true] at hrt
    obtain ⟨⟨hne, hnd⟩, hp⟩ := hrt
    have hm := intoZvalMap_shape props hp
    have hins : HMap.insertList [] props = props := by
      have := HMap.insertList_append props [] hnd (by simp [HMap.hasKey])
      simpa using this
    simp [PHPValue.intoZval, js_value_from_zval, hm.1, hm.2.1, hm.2.2, hne,
      List.zip_map', PHPValue.fromJS, ih hp, hins]
  · intro _
    simp [fromJSList]
  · intro w rest ihw ihrest hrt
    simp [roundTrippableList, Bool.and_eq_true] at hrt
    simp [fromJSList, ihw hrt.1, ihrest hrt.2]
  · intro _
    simp [fromJSProps]
  · intro k w rest ihw ihrest hrt
    simp [roundTrippableProps, Bool.and_eq_true] at hrt
    simp [fromJSProps, ihw hrt.1.2, ihrest hrt.2]

/-- Witness for C1 (amended): a nested object/array/scalar host value
round-trips unchanged. -/
theorem roundTrip_of_roundTrippable_witness :
    (PHPValue.Object
        [("k", .Array [.Integer 5, .String "s", .Float (.nonInt 3)]),
         ("m", .Boolean false)]).roundTrippable = true ∧
    PHPValue.fromJS
        (js_value_from_zval
          (PHPValue.Object
            [("k", .Array [.Integer 5, .String "s", .Float (.nonInt 3)]),
             ("m", .Boolean false)]).intoZval) =
      some (PHPValue.Object
        [("k", .Array [.Integer 5, .String "s", .Float (.nonInt 3)]),
         ("m", .Boolean false)]) :=
  ⟨by decide,
    roundTrip_of_roundTrippable
      (PHPValue.Object
        [("k", .Array [.Integer 5, .String "s", .Float (.nonInt 3)]),
         ("m", .Boolean false)])
      (by decide)⟩
